import Mathlib

/- Formal model of the core UI logic of the IEVR Mod Manager repository.

   The definitions below are shallow embeddings of the Python source under
   src/src/ui (mainly main_window.py and log_panel.py).  State is passed
   explicitly; Tk side effects (dialogs, log records, thread starts, file
   operations) are reified as values of the `Effect` type; collaborator
   modules that are not part of the supplied slice (mod_manager.py,
   viola_integration.py, models.py) are modelled from the specification
   where a claim needs them, and each such definition says so in its doc
   comment. -/

/-- Log severity levels used by `LogPanel.log` and `MainWindow._log`
(the four Tk text tags configured in src/src/ui/log_panel.py). -/
inductive LogLevel where
  | info
  | success
  | warning
  | error
  deriving DecidableEq

/-- Splits a character list at newline characters, keeping empty fragments,
mirroring how the Tk `Text` widget counts display lines of inserted text. -/
def splitNL : List Char → List (List Char)
  | [] => [[]]
  | c :: cs =>
    if c = '\n' then [] :: splitNL cs
    else
      match splitNL cs with
      | [] => [[c]]
      | l :: ls => (c :: l) :: ls

/-- The completed display lines contributed by one `LogPanel.log` call:
the widget receives the text of the two inserts, `"[" + timestamp + "] "`
followed by `message + "\n"`, so the completed lines are the newline-split
fragments of `"[" + timestamp + "] " + message`. -/
def renderLines (timestamp message : String) : List String :=
  (splitNL ("[" ++ timestamp ++ "] " ++ message).data).map (fun cs => String.mk cs)

/-- The single display line of a record whose timestamp and message contain
no newline character. -/
def renderOne (timestamp message : String) : String :=
  "[" ++ timestamp ++ "] " ++ message

/-- `LogPanel.log` (src/src/ui/log_panel.py, lines 60-78), state being the
list of completed display lines held by the Text widget.  The code inserts
the timestamp prefix and `message + "\n"`, reads the current line count as
`int(self.text_widget.index("end-1c").split(".")[0])` — which for a
newline-terminated buffer of `n` completed lines is `n + 1` — and if that
count exceeds the bound deletes `"1.0"` .. `"{lines - bound}.0"`, i.e. the
first `lines - bound - 1` completed lines.  The bound is the literal 1000
in the source; it is the `maxLines` parameter here.  The `level` argument
of the source only selects a colour tag and does not affect the stored
text, so it is omitted from the state. -/
def logB (maxLines : Nat) (st : List String) (timestamp message : String) : List String :=
  let ls := st ++ renderLines timestamp message
  let lines := ls.length + 1
  if lines > maxLines then ls.drop (lines - maxLines - 1) else ls

/-- `LogPanel.log` with the bound 1000 hard-coded as in the source. -/
def LogPanel.log (st : List String) (timestamp message : String) : List String :=
  logB 1000 st timestamp message

/-- The log state after a sequence of `LogPanel.log` calls, each record a
(timestamp, message) pair, starting from the empty widget. -/
def logAll (maxLines : Nat) (records : List (String × String)) : List String :=
  records.foldl (fun st r => logB maxLines st r.1 r.2) []

/-- True when a string contains no newline character. -/
def noNewline (s : String) : Bool := s.data.all (fun c => !(c == '\n'))

/-- Keeps the last `m` elements of a list. -/
def keepLast (m : Nat) (l : List String) : List String := l.drop (l.length - m)

/-- Modelled from the spec: `ModEntry` (models.py, not in the supplied
slice).  Per spec section 3, an entry has a stable `identity`, a mutable
boolean `enabled` flag and an immutable `sourcePath`; the display name is
derived from the identity and is not modelled. -/
structure ModEntry where
  identity : String
  enabled : Bool
  sourcePath : String
  deriving DecidableEq

/-- `MainWindow.enable_all` (src/src/ui/main_window.py, lines 401-405):
sets every entry's enabled flag to true. -/
def enable_all (entries : List ModEntry) : List ModEntry :=
  entries.map (fun e => { e with enabled := true })

/-- `MainWindow.disable_all` (src/src/ui/main_window.py, lines 407-411):
sets every entry's enabled flag to false. -/
def disable_all (entries : List ModEntry) : List ModEntry :=
  entries.map (fun e => { e with enabled := false })

/-- Modelled from the spec: `ModManager.get_enabled_mods` (mod_manager.py,
not in the supplied slice).  Per spec section 4.1, `enabledSubsetInOrder()`
returns the source paths of the entries with enabled=true, preserving the
current list order. -/
def get_enabled_mods (entries : List ModEntry) : List String :=
  (entries.filter (fun e => e.enabled)).map (fun e => e.sourcePath)

/-- Python list index normalisation: a negative index counts from the end;
the access succeeds when the normalised index is in range, otherwise an
IndexError is raised (`none`). -/
def pyIndex (n : Nat) (i : Int) : Option Nat :=
  let j := if i < 0 then i + n else i
  if 0 ≤ j ∧ j < (n : Int) then some j.toNat else none

/-- Python list read `l[i]` with Python index semantics. -/
def pyGet {α : Type} (l : List α) (i : Int) : Option α :=
  (pyIndex l.length i).bind (fun j => l[j]?)

/-- Python list write `l[i] = a` with Python index semantics. -/
def pySet {α : Type} (l : List α) (i : Int) (a : α) : Option (List α) :=
  (pyIndex l.length i).map (fun j => l.set j a)

/-- `MainWindow.move_up` (src/src/ui/main_window.py, lines 375-386), on the
`self.mod_entries` list.  The selected index comes from the mods panel as
`None` or an integer; `None` and `idx <= 0` return without change,
otherwise the tuple assignment
`entries[idx-1], entries[idx] = entries[idx], entries[idx-1]`
reads both right-hand sides, then assigns the targets left to right.
`none` as result models a raised IndexError. -/
def move_up {α : Type} (l : List α) (idx : Option Int) : Option (List α) :=
  match idx with
  | none => some l
  | some i =>
    if i ≤ 0 then some l
    else do
      let r1 ← pyGet l i
      let r2 ← pyGet l (i - 1)
      let l1 ← pySet l (i - 1) r1
      pySet l1 i r2

/-- `MainWindow.move_down` (src/src/ui/main_window.py, lines 388-399):
`None` and `idx >= len(entries) - 1` return without change, otherwise
`entries[idx+1], entries[idx] = entries[idx], entries[idx+1]`. -/
def move_down {α : Type} (l : List α) (idx : Option Int) : Option (List α) :=
  match idx with
  | none => some l
  | some i =>
    if (l.length : Int) - 1 ≤ i then some l
    else do
      let r1 ← pyGet l i
      let r2 ← pyGet l (i + 1)
      let l1 ← pySet l (i + 1) r1
      pySet l1 i r2

/-- Swap of the adjacent positions `i` and `i+1` of a list (identity when
either position is out of range). -/
def swapNext {α : Type} (l : List α) (i : Nat) : List α :=
  match l[i]?, l[i + 1]? with
  | some a, some b => (l.set (i + 1) a).set i b
  | _, _ => l

deriving instance DecidableEq for Except

/-- Observable effects of `MainWindow.apply_mods` and `MainWindow._save_config`
on the calling (UI) thread: message boxes, log records (via `_log`),
directory creation, the base-file copy of the no-mods branch, and the start
of the background worker thread. -/
inductive Effect where
  | showinfo (title msg : String)
  | showerror (title msg : String)
  | logMsg (msg : String) (level : LogLevel)
  | makeDirs (dir : String)
  | copyFile (src dst : String)
  | startWorkerThread
  deriving DecidableEq

/-- Inputs of one `MainWindow.apply_mods` call (src/src/ui/main_window.py,
lines 414-461): the three configured path strings as read from the Tk
variables, the results of the `os.path` existence checks on their stripped
values, the temp directory, the enabled-mods list returned by
`ModManager.get_enabled_mods`, and the outcome of the try block of the
no-mods branch (`Except.error e` models an exception with description `e`
raised by `os.makedirs`/`shutil.copy2`).  Path strings are taken as
already absolute (`os.path.abspath` is not modelled) and `os.path.join`
is modelled with a `/` separator. -/
structure ApplyEnv where
  game_path : String
  cfgbin_path : String
  violacli_path : String
  tmp_dir : String
  game_path_isdir : Bool
  cfgbin_exists : Bool
  violacli_exists : Bool
  enabled_mods : List String
  copy_base : Except String Unit
  deriving DecidableEq

/-- Python `str.strip()` with no argument: removes leading and trailing
whitespace characters. -/
def pyStrip (s : String) : String :=
  String.mk (((s.data.dropWhile Char.isWhitespace).reverse.dropWhile
    Char.isWhitespace).reverse)

/-- `MainWindow.apply_mods` (src/src/ui/main_window.py, lines 414-461) as
the list of effects it performs on the calling thread.  `is_running` is
the value of `self.viola.is_running()` at the time of the call.  Python
`"" ` is falsy, so `not game_path` is the emptiness test on the stripped
string. -/
def apply_mods (is_running : Bool) (env : ApplyEnv) : List Effect :=
  if is_running then [Effect.showinfo "Info" "A process is already running."]
  else
    let game_path := pyStrip env.game_path
    let cfgbin := pyStrip env.cfgbin_path
    let violacli := pyStrip env.violacli_path
    if game_path == "" || !env.game_path_isdir then
      [Effect.showerror "Error" "Invalid game path."]
    else if cfgbin == "" || !env.cfgbin_exists then
      [Effect.showerror "Error" "Invalid cpk_list.cfg.bin path."]
    else if violacli == "" || !env.violacli_exists then
      [Effect.showerror "Error" "violacli.exe not found. Please configure its path."]
    else if env.enabled_mods.isEmpty then
      match env.copy_base with
      | Except.ok _ =>
        [Effect.makeDirs (game_path ++ "/data"),
         Effect.copyFile cfgbin (game_path ++ "/data/cpk_list.cfg.bin"),
         Effect.logMsg "CHANGES APPLIED!! No mods selected." LogLevel.success]
      | Except.error e =>
        [Effect.logMsg ("Error applying changes: " ++ e) LogLevel.error]
    else
      [Effect.makeDirs env.tmp_dir, Effect.startWorkerThread]

/-- The conjunction of the three path validations of `apply_mods`: game
path non-empty and a directory, cfg.bin path non-empty and existing,
violacli path non-empty and existing. -/
def pathsValid (env : ApplyEnv) : Bool :=
  (!(pyStrip env.game_path == "") && env.game_path_isdir) &&
  (!(pyStrip env.cfgbin_path == "") && env.cfgbin_exists) &&
  (!(pyStrip env.violacli_path == "") && env.violacli_exists)

/-- True exactly when the effect list is a single error dialog and nothing
else (no log record, no thread, no filesystem effect). -/
def isValidationError : List Effect → Bool
  | [Effect.showerror _ _] => true
  | _ => false

/-- Number of background worker threads currently in flight. -/
structure ViolaState where
  workers : Nat
  deriving DecidableEq

/-- Modelled from the spec: `ViolaIntegration.is_running`
(viola_integration.py, not in the supplied slice).  Per spec section 5,
it is the "is a job already running?" guard: true exactly while the single
dedicated worker started by `apply_mods` has not finished. -/
def ViolaIntegration.is_running (s : ViolaState) : Bool :=
  decide (0 < s.workers)

/-- Events of the apply/worker state machine: an apply request with its
environment, or the termination of a background worker. -/
inductive MgrEvent where
  | applyRequest (env : ApplyEnv)
  | workerDone

/-- One step of the apply/worker state machine: an apply request starts a
worker exactly when `apply_mods` reaches `thread.start()`; a rejected or
refused request leaves the state unchanged (in particular nothing is
queued); a finishing worker leaves the in-flight count. -/
def mgrStep (s : ViolaState) (ev : MgrEvent) : ViolaState :=
  match ev with
  | MgrEvent.applyRequest env =>
    if (apply_mods (ViolaIntegration.is_running s) env).contains Effect.startWorkerThread
    then { workers := s.workers + 1 }
    else s
  | MgrEvent.workerDone => { workers := s.workers - 1 }

/-- The state after a sequence of events, starting with no worker running. -/
def mgrRun (evs : List MgrEvent) : ViolaState :=
  evs.foldl mgrStep { workers := 0 }

/-- Inputs of one `MainWindow._run_merge_and_copy` call: the results of the
three collaborator calls `viola.merge_mods`, `viola.copy_merged_files` and
`viola.cleanup_temp` (viola_integration.py, not in the supplied slice).
`Except.ok b` models a normal return of `b`; `Except.error e` models an
exception with description `e` raised inside the call. -/
structure JobEnv where
  mergeResult : Except String Bool
  copyResult : Except String Bool
  cleanupResult : Except String Unit
  deriving DecidableEq

/-- What one background job did: how many times each collaborator step was
invoked, and the log records it emitted (via `self._log`). -/
structure JobTrace where
  mergeCalls : Nat
  copyCalls : Nat
  cleanupCalls : Nat
  logs : List (String × LogLevel)
  deriving DecidableEq

/-- The `try` block of `MainWindow._run_merge_and_copy`
(src/src/ui/main_window.py, lines 466-482): `some e` in the first
component means an exception with description `e` escaped the block, with
the second component the trace accumulated up to that point. -/
def run_body (env : JobEnv) : Option String × JobTrace :=
  match env.mergeResult with
  | Except.error e => (some e, ⟨1, 0, 0, []⟩)
  | Except.ok false =>
    (none, ⟨1, 0, 0, [("violacli returned error; aborting copy.", LogLevel.error)]⟩)
  | Except.ok true =>
    match env.copyResult with
    | Except.error e => (some e, ⟨1, 1, 0, []⟩)
    | Except.ok false =>
      (none, ⟨1, 1, 0, [("Failed to copy merged files.", LogLevel.error)]⟩)
    | Except.ok true =>
      match env.cleanupResult with
      | Except.error e => (some e, ⟨1, 1, 1, []⟩)
      | Except.ok _ =>
        (none, ⟨1, 1, 1, [("MODS APPLIED!!", LogLevel.success)]⟩)

/-- `MainWindow._run_merge_and_copy` (src/src/ui/main_window.py, lines
463-485): the try block, with any escaping exception caught at the job
boundary and converted to an error-level log record carrying the
exception's description. -/
def run_merge_and_copy (env : JobEnv) : JobTrace :=
  match run_body env with
  | (none, tr) => tr
  | (some e, tr) =>
    { tr with logs := tr.logs ++ [("Unexpected error: " ++ e, LogLevel.error)] }

/-- `MainWindow._save_config` (src/src/ui/main_window.py, lines 500-514) as
the list of effects it performs after `ConfigManager.save` (config part of
the repository not in the supplied slice) reports `success`;
`config_path` is `self.config_manager.config_path`. -/
def save_config (success : Bool) (config_path : String) : List Effect :=
  if success then
    [Effect.logMsg ("Configuration saved to " ++ config_path) LogLevel.success]
  else
    [Effect.showerror "Error" "Could not save configuration.",
     Effect.logMsg "Could not save configuration." LogLevel.error]

/-- True on effects that are blocking error dialogs. -/
def isAlert : Effect → Bool
  | Effect.showerror _ _ => true
  | _ => false

/-- True on error-level log-record effects. -/
def isErrorLog : Effect → Bool
  | Effect.logMsg _ LogLevel.error => true
  | _ => false

/-- True on success-level log-record effects. -/
def isSuccessLog : Effect → Bool
  | Effect.logMsg _ LogLevel.success => true
  | _ => false

theorem pyIndex_nonneg {n : Nat} {i : Int} (h0 : 0 ≤ i) (h1 : i < (n : Int)) :
    pyIndex n i = some i.toNat := by
  simp [pyIndex, show ¬ i < 0 by omega, h0, h1]

theorem pyIndex_neg {n : Nat} {i : Int} (h0 : i < 0) (h1 : 0 ≤ i + n) :
    pyIndex n i = some (i + n).toNat := by
  simp [pyIndex, h0, h1, show i + (n : Int) < (n : Int) by omega]

theorem pyIndex_none_high {n : Nat} {i : Int} (h0 : 0 ≤ i) (h1 : (n : Int) ≤ i) :
    pyIndex n i = none := by
  simp [pyIndex, show ¬ i < 0 by omega, show ¬ i < (n : Int) by omega]

theorem pyIndex_none_low {n : Nat} {i : Int} (h : i + n < 0) :
    pyIndex n i = none := by
  simp [pyIndex, show i < 0 by omega, show ¬ 0 ≤ i + (n : Int) by omega]

theorem pyIndex_natCast {n i : Nat} (h : i < n) : pyIndex n (i : Int) = some i := by
  rw [pyIndex_nonneg (by omega) (by omega)]
  simp

theorem length_swapNext {α : Type} (l : List α) (i : Nat) :
    (swapNext l i).length = l.length := by
  unfold swapNext
  split <;> simp

theorem swapNext_eq {α : Type} {l : List α} {i : Nat} {a b : α}
    (ha : l[i]? = some a) (hb : l[i + 1]? = some b) :
    swapNext l i = (l.set (i + 1) a).set i b := by
  unfold swapNext
  rw [ha, hb]

theorem move_swap_core_down {α : Type} (l : List α) (i : Int) (j : Nat)
    (hg : ¬ ((l.length : Int) - 1 ≤ i))
    (h1 : pyIndex l.length i = some j)
    (h2 : pyIndex l.length (i + 1) = some (j + 1))
    (hj : j + 1 < l.length) :
    move_down l (some i) = some (swapNext l j) := by
  have hj0 : j < l.length := by omega
  have ha : l[j]? = some l[j] := List.getElem?_eq_getElem hj0
  have hb : l[j + 1]? = some l[j + 1] := List.getElem?_eq_getElem hj
  have h1' : pyIndex (l.set (j + 1) l[j]).length i = some j := by
    rwa [List.length_set]
  rw [swapNext_eq ha hb]
  simp only [move_down, if_neg hg, pyGet, pySet, h1, h2, ha, hb,
    Option.bind_eq_bind, Option.some_bind, Option.map_some', h1']

theorem move_swap_core_up {α : Type} (l : List α) (i : Int) (j : Nat)
    (hg : ¬ (i ≤ 0))
    (h1 : pyIndex l.length i = some (j + 1))
    (h2 : pyIndex l.length (i - 1) = some j)
    (hj : j + 1 < l.length) :
    move_up l (some i) = some (swapNext l j) := by
  have hj0 : j < l.length := by omega
  have ha : l[j]? = some l[j] := List.getElem?_eq_getElem hj0
  have hb : l[j + 1]? = some l[j + 1] := List.getElem?_eq_getElem hj
  have h1' : pyIndex (l.set j l[j + 1]).length i = some (j + 1) := by
    rwa [List.length_set]
  rw [swapNext_eq ha hb]
  simp only [move_up, if_neg hg, pyGet, pySet, h1, h2, ha, hb,
    Option.bind_eq_bind, Option.some_bind, Option.map_some', h1']
  rw [List.set_comm _ _ _ (by omega : j + 1 ≠ j)]

theorem move_down_nat {α : Type} (l : List α) (i : Nat) (h : i + 1 < l.length) :
    move_down l (some (i : Int)) = some (swapNext l i) := by
  apply move_swap_core_down l (i : Int) i (by omega)
  · exact pyIndex_natCast (by omega)
  · rw [show ((i : Int) + 1) = ((i + 1 : Nat) : Int) by omega]
    exact pyIndex_natCast h
  · exact h

theorem move_up_nat {α : Type} (l : List α) (i : Nat) (h : i + 1 < l.length) :
    move_up l (some ((i : Int) + 1)) = some (swapNext l i) := by
  apply move_swap_core_up l ((i : Int) + 1) i (by omega)
  · rw [show ((i : Int) + 1) = ((i + 1 : Nat) : Int) by omega]
    exact pyIndex_natCast h
  · rw [show ((i : Int) + 1 - 1) = ((i : Nat) : Int) by omega]
    exact pyIndex_natCast (by omega)
  · exact h

theorem swapNext_swapNext {α : Type} (l : List α) (i : Nat) (h : i + 1 < l.length) :
    swapNext (swapNext l i) i = l := by
  have h0 : i < l.length := by omega
  have ha : l[i]? = some l[i] := List.getElem?_eq_getElem h0
  have hb : l[i + 1]? = some l[i + 1] := List.getElem?_eq_getElem h
  have hs : swapNext l i = (l.set (i + 1) l[i]).set i l[i + 1] :=
    swapNext_eq ha hb
  have hA : (swapNext l i)[i]? = some l[i + 1] := by
    rw [hs]
    simp [List.getElem?_set, h0]
  have hB : (swapNext l i)[i + 1]? = some l[i] := by
    rw [hs]
    simp [List.getElem?_set, h, Nat.ne_of_lt (by omega : i < i + 1)]
  rw [swapNext_eq hA hB, hs]
  apply List.ext_getElem?
  intro n
  simp only [List.getElem?_set, List.length_set]
  split_ifs <;> simp_all

/-- C5: for every list and every non-boundary index, `move_down` at `i`
followed by `move_up` at the position `i+1` where the moved entry landed
restores the original order, and likewise `move_up` at `i+1` followed by
`move_down` at `i`. -/
theorem claim5_move_inverse {α : Type} (l : List α) (i : Nat) (h : i + 1 < l.length) :
    ((move_down l (some (i : Int))).bind fun l2 => move_up l2 (some ((i : Int) + 1))) =
      some l ∧
    ((move_up l (some ((i : Int) + 1))).bind fun l2 => move_down l2 (some (i : Int))) =
      some l := by
  have hlen : i + 1 < (swapNext l i).length := by rw [length_swapNext]; exact h
  constructor
  · rw [move_down_nat l i h]
    simp only [Option.some_bind]
    rw [move_up_nat (swapNext l i) i hlen, swapNext_swapNext l i h]
  · rw [move_up_nat l i h]
    simp only [Option.some_bind]
    rw [move_down_nat (swapNext l i) i hlen, swapNext_swapNext l i h]

/-- Witness for C5 at the concrete list `[0, 1, 2]` and index `1`. -/
theorem claim5_move_inverse_witness :
    ((move_down ([0, 1, 2] : List Nat) (some ((1 : Nat) : Int))).bind
      fun l2 => move_up l2 (some (((1 : Nat) : Int) + 1))) = some [0, 1, 2] ∧
    ((move_up ([0, 1, 2] : List Nat) (some (((1 : Nat) : Int) + 1))).bind
      fun l2 => move_down l2 (some ((1 : Nat) : Int))) = some [0, 1, 2] :=
  claim5_move_inverse [0, 1, 2] 1 (by decide)

/-- C6 counterexample: `move_down` at the out-of-bounds index `-1` on a
two-element list is neither a no-op nor an error — Python negative
indexing makes it swap the first and last entries. -/
theorem claim6_counterexample :
    move_down ([0, 1] : List Nat) (some (-1)) = some [1, 0] ∧
    ([1, 0] : List Nat) ≠ [0, 1] := by
  constructor
  · decide
  · decide

/-- C6 (amended): `move_up` and `move_down` are no-ops for a missing
selection and at their clamped boundaries (`i ≤ 0` for `move_up`,
`i ≥ len - 1` for `move_down`) and swap the entry with its neighbour for
every in-range non-boundary index; however `move_up` raises IndexError for
`i ≥ len`, and negative indices follow Python semantics for `move_down`:
`-len ≤ i ≤ -2` swaps at position `i + len`, `i = -1` swaps the first and
last entries (a no-op only when the list is a singleton), and `i < -len`
raises IndexError. -/
theorem claim6_move_totality {α : Type} (l : List α) (i : Int) :
    (move_up l none = some l) ∧
    (move_down l none = some l) ∧
    (i ≤ 0 → move_up l (some i) = some l) ∧
    (0 < i → i < (l.length : Int) → move_up l (some i) = some (swapNext l (i.toNat - 1))) ∧
    (0 < i → (l.length : Int) ≤ i → move_up l (some i) = none) ∧
    ((l.length : Int) - 1 ≤ i → move_down l (some i) = some l) ∧
    (0 ≤ i → i < (l.length : Int) - 1 → move_down l (some i) = some (swapNext l i.toNat)) ∧
    (-(l.length : Int) ≤ i → i ≤ -2 →
      move_down l (some i) = some (swapNext l (i + l.length).toNat)) ∧
    (i ≤ -2 → i + (l.length : Int) < 0 → move_down l (some i) = none) ∧
    (i = -1 → l.length = 1 → move_down l (some i) = some l) ∧
    (i = -1 → 2 ≤ l.length → ∃ a b, l[0]? = some a ∧ l[l.length - 1]? = some b ∧
      move_down l (some i) = some ((l.set 0 b).set (l.length - 1) a)) := by
  refine ⟨rfl, rfl, ?_, ?_, ?_, ?_, ?_, ?_, ?_, ?_, ?_⟩
  · intro h
    simp [move_up, h]
  · intro h1 h2
    apply move_swap_core_up l i (i.toNat - 1) (by omega)
    · rw [pyIndex_nonneg (by omega) h2]
      congr 1
      omega
    · rw [pyIndex_nonneg (by omega) (by omega)]
      congr 1
      omega
    · omega
  · intro h1 h2
    simp only [move_up, if_neg (by omega : ¬ i ≤ 0), pyGet,
      pyIndex_none_high (by omega : (0 : Int) ≤ i) h2]
    rfl
  · intro h
    simp [move_down, h]
  · intro h1 h2
    apply move_swap_core_down l i i.toNat (by omega)
    · rw [pyIndex_nonneg h1 (by omega)]
    · rw [pyIndex_nonneg (by omega) (by omega)]
      congr 1
      omega
    · omega
  · intro h1 h2
    apply move_swap_core_down l i (i + l.length).toNat (by omega)
    · rw [pyIndex_neg (by omega) (by omega)]
    · rw [pyIndex_neg (by omega) (by omega)]
      congr 1
      omega
    · omega
  · intro h1 h2
    simp only [move_down, if_neg (by omega : ¬ (l.length : Int) - 1 ≤ i), pyGet,
      pyIndex_none_low h2]
    rfl
  · intro h1 h2
    subst h1
    match l, h2 with
    | [a], _ =>
      simp [move_down, pyGet, pySet, pyIndex]
  · intro h1 h2
    subst h1
    have h0 : 0 < l.length := by omega
    have hL : l.length - 1 < l.length := by omega
    refine ⟨l[0], l[l.length - 1], List.getElem?_eq_getElem h0,
      List.getElem?_eq_getElem hL, ?_⟩
    have hI1 : pyIndex l.length (-1) = some (l.length - 1) := by
      rw [pyIndex_neg (by omega) (by omega)]
      congr 1
      omega
    have hI0 : pyIndex l.length (-1 + 1) = some 0 := by
      rw [show (-1 + 1 : Int) = ((0 : Nat) : Int) by omega]
      exact pyIndex_natCast h0
    have hI1' : pyIndex (l.set 0 l[l.length - 1]).length (-1) = some (l.length - 1) := by
      rwa [List.length_set]
    simp only [move_down, if_neg (by omega : ¬ (l.length : Int) - 1 ≤ -1), pyGet, pySet,
      hI1, hI0, List.getElem?_eq_getElem h0, List.getElem?_eq_getElem hL,
      Option.bind_eq_bind, Option.some_bind, Option.map_some', hI1']

/-- Witness for C6 at concrete lists and indices, covering the no-op,
swap, IndexError and negative-index cases. -/
theorem claim6_move_totality_witness :
    move_up ([0, 1, 2] : List Nat) (some 2) = some (swapNext [0, 1, 2] 1) ∧
    move_up ([0, 1, 2] : List Nat) (some 7) = none ∧
    move_down ([0, 1, 2] : List Nat) (some 5) = some [0, 1, 2] ∧
    move_down ([0, 1, 2] : List Nat) (some 0) = some (swapNext [0, 1, 2] 0) ∧
    move_down ([0, 1, 2, 3] : List Nat) (some (-3)) = some (swapNext [0, 1, 2, 3] 1) ∧
    move_down ([0, 1] : List Nat) (some (-7)) = none := by
  refine ⟨?_, ?_, ?_, ?_, ?_, ?_⟩
  · exact (claim6_move_totality [0, 1, 2] 2).2.2.2.1 (by decide) (by decide)
  · exact (claim6_move_totality [0, 1, 2] 7).2.2.2.2.1 (by decide) (by decide)
  · exact (claim6_move_totality [0, 1, 2] 5).2.2.2.2.2.1 (by decide)
  · exact (claim6_move_totality [0, 1, 2] 0).2.2.2.2.2.2.1 (by decide) (by decide)
  · have := (claim6_move_totality [0, 1, 2, 3] (-3)).2.2.2.2.2.2.2.1 (by decide) (by decide)
    simpa using this
  · exact (claim6_move_totality [0, 1] (-7)).2.2.2.2.2.2.2.2.1 (by decide) (by decide)

theorem apply_mods_running (env : ApplyEnv) :
    apply_mods true env = [Effect.showinfo "Info" "A process is already running."] := rfl

theorem apply_mods_invalid_game (env : ApplyEnv)
    (h : (pyStrip env.game_path == "" || !env.game_path_isdir) = true) :
    apply_mods false env = [Effect.showerror "Error" "Invalid game path."] := by
  simp [apply_mods, h]

theorem apply_mods_invalid_cfg (env : ApplyEnv)
    (h1 : (pyStrip env.game_path == "" || !env.game_path_isdir) = false)
    (h2 : (pyStrip env.cfgbin_path == "" || !env.cfgbin_exists) = true) :
    apply_mods false env = [Effect.showerror "Error" "Invalid cpk_list.cfg.bin path."] := by
  simp [apply_mods, h1, h2]

theorem apply_mods_invalid_viola (env : ApplyEnv)
    (h1 : (pyStrip env.game_path == "" || !env.game_path_isdir) = false)
    (h2 : (pyStrip env.cfgbin_path == "" || !env.cfgbin_exists) = false)
    (h3 : (pyStrip env.violacli_path == "" || !env.violacli_exists) = true) :
    apply_mods false env =
      [Effect.showerror "Error" "violacli.exe not found. Please configure its path."] := by
  simp [apply_mods, h1, h2, h3]

/-- C3: a missing or invalid configured path makes `apply_mods` refuse the
request before any work starts: the only effect is a single synchronous
error dialog (so no log record, no filesystem change, no state mutation),
and no worker thread is started whether or not a job is running. -/
theorem claim3_validation (env : ApplyEnv) (h : pathsValid env = false) :
    isValidationError (apply_mods false env) = true ∧
    Effect.startWorkerThread ∉ apply_mods false env ∧
    Effect.startWorkerThread ∉ apply_mods true env := by
  have h3 : Effect.startWorkerThread ∉ apply_mods true env := by
    rw [apply_mods_running]
    simp
  by_cases c1 : (pyStrip env.game_path == "" || !env.game_path_isdir) = true
  · rw [apply_mods_invalid_game env c1]
    exact ⟨rfl, by simp, h3⟩
  · rw [Bool.not_eq_true] at c1
    by_cases c2 : (pyStrip env.cfgbin_path == "" || !env.cfgbin_exists) = true
    · rw [apply_mods_invalid_cfg env c1 c2]
      exact ⟨rfl, by simp, h3⟩
    · rw [Bool.not_eq_true] at c2
      by_cases c3 : (pyStrip env.violacli_path == "" || !env.violacli_exists) = true
      · rw [apply_mods_invalid_viola env c1 c2 c3]
        exact ⟨rfl, by simp, h3⟩
      · rw [Bool.not_eq_true] at c3
        exfalso
        rw [Bool.or_eq_false_iff] at c1 c2 c3
        have : pathsValid env = true := by
          simp only [pathsValid, Bool.and_eq_true, Bool.not_eq_true']
          exact ⟨⟨⟨c1.1, by simpa using c1.2⟩, c2.1, by simpa using c2.2⟩,
            c3.1, by simpa using c3.2⟩
        rw [h] at this
        exact absurd this (by decide)

/-- A concrete environment whose game path is empty and not a directory. -/
def invalidEnv : ApplyEnv :=
  ⟨"", "/cfg/cpk_list.cfg.bin", "/tools/violacli.exe", "/tmp/ievr",
    false, true, true, [], Except.ok ()⟩

/-- Witness for C3 at a concrete environment with an invalid game path. -/
theorem claim3_validation_witness :
    pathsValid invalidEnv = false ∧
    isValidationError (apply_mods false invalidEnv) = true ∧
    Effect.startWorkerThread ∉ apply_mods false invalidEnv ∧
    Effect.startWorkerThread ∉ apply_mods true invalidEnv :=
  ⟨by decide, (claim3_validation invalidEnv (by decide)).1,
    (claim3_validation invalidEnv (by decide)).2.1,
    (claim3_validation invalidEnv (by decide)).2.2⟩

theorem mgrStep_workers_le (s : ViolaState) (ev : MgrEvent) (h : s.workers ≤ 1) :
    (mgrStep s ev).workers ≤ 1 := by
  cases ev with
  | workerDone =>
    simp only [mgrStep]
    omega
  | applyRequest env =>
    simp only [mgrStep]
    split
    · rename_i hc
      have hr : ViolaIntegration.is_running s = false := by
        by_contra hrr
        rw [Bool.not_eq_false] at hrr
        rw [hrr, apply_mods_running] at hc
        exact absurd hc (by decide)
      have h0 : s.workers = 0 := by
        simp only [ViolaIntegration.is_running, decide_eq_false_iff_not] at hr
        omega
      simp [h0]
    · exact h

theorem mgrRun_invariant (evs : List MgrEvent) :
    ∀ s : ViolaState, s.workers ≤ 1 → (evs.foldl mgrStep s).workers ≤ 1 := by
  induction evs with
  | nil =>
    intro s h
    simpa using h
  | cons ev rest ih =>
    intro s h
    simp only [List.foldl_cons]
    exact ih _ (mgrStep_workers_le s ev h)

/-- C2: along every event sequence at most one background worker is in
flight, and an apply request that arrives while one is running is rejected
with an info dialog and leaves the state unchanged — in particular it is
never queued for later execution. -/
theorem claim2_single_worker :
    (∀ evs : List MgrEvent, (mgrRun evs).workers ≤ 1) ∧
    (∀ (s : ViolaState) (env : ApplyEnv), ViolaIntegration.is_running s = true →
      apply_mods (ViolaIntegration.is_running s) env =
        [Effect.showinfo "Info" "A process is already running."] ∧
      mgrStep s (MgrEvent.applyRequest env) = s) := by
  constructor
  · intro evs
    exact mgrRun_invariant evs ⟨0⟩ (by simp)
  · intro s env hr
    have hcf : ([Effect.showinfo "Info" "A process is already running."].contains
        Effect.startWorkerThread) = false := by decide
    refine ⟨by rw [hr, apply_mods_running], ?_⟩
    simp [mgrStep, hr, apply_mods_running, hcf]

/-- A concrete environment with valid paths and one enabled mod, so that an
apply request on it starts the worker. -/
def sampleEnv : ApplyEnv :=
  ⟨"/game", "/cfg/cpk_list.cfg.bin", "/tools/violacli.exe", "/tmp/ievr",
    true, true, true, ["/mods/modA"], Except.ok ()⟩

/-- Witness for C2: a concrete trace of two overlapping apply requests, and
the rejection behaviour at a concrete busy state. -/
theorem claim2_single_worker_witness :
    (mgrRun [MgrEvent.applyRequest sampleEnv, MgrEvent.applyRequest sampleEnv]).workers ≤ 1 ∧
    apply_mods (ViolaIntegration.is_running ⟨1⟩) sampleEnv =
      [Effect.showinfo "Info" "A process is already running."] ∧
    mgrStep ⟨1⟩ (MgrEvent.applyRequest sampleEnv) = ⟨1⟩ :=
  ⟨claim2_single_worker.1 _,
    (claim2_single_worker.2 ⟨1⟩ sampleEnv (by decide)).1,
    (claim2_single_worker.2 ⟨1⟩ sampleEnv (by decide)).2⟩

/-- C4: in every background job the merge step is invoked exactly once, and
the copy and cleanup steps are invoked exactly once or not at all: copy is
attempted exactly when merge returned success, and cleanup exactly when
merge returned success and copy returned success — so a merge failure
prevents the copy and a copy failure prevents the cleanup. -/
theorem claim4_job_sequence (env : JobEnv) :
    (run_merge_and_copy env).mergeCalls = 1 ∧
    (run_merge_and_copy env).copyCalls =
      (if env.mergeResult = Except.ok true then 1 else 0) ∧
    (run_merge_and_copy env).cleanupCalls =
      (if env.mergeResult = Except.ok true ∧ env.copyResult = Except.ok true
       then 1 else 0) := by
  obtain ⟨mr, cr, clr⟩ := env
  cases mr with
  | error e => simp [run_merge_and_copy, run_body]
  | ok b =>
    cases b with
    | false => simp [run_merge_and_copy, run_body]
    | true =>
      cases cr with
      | error e2 => simp [run_merge_and_copy, run_body]
      | ok b2 =>
        cases b2 with
        | false => simp [run_merge_and_copy, run_body]
        | true =>
          cases clr with
          | error e3 => simp [run_merge_and_copy, run_body]
          | ok u => simp [run_merge_and_copy, run_body]

/-- C8: whenever the try block of the background job raises (modelled by
`run_body` returning `some e`), the job boundary catches it and the job's
only additional output is an error-level log record carrying the
exception's description — `run_merge_and_copy` is total, so no exception
ever propagates out of the job. -/
theorem claim8_job_boundary (env : JobEnv) (e : String) (tr : JobTrace)
    (h : run_body env = (some e, tr)) :
    run_merge_and_copy env =
      { tr with logs := tr.logs ++ [("Unexpected error: " ++ e, LogLevel.error)] } := by
  unfold run_merge_and_copy
  rw [h]

/-- Witness for C8: a job whose merge step raises "boom". -/
theorem claim8_job_boundary_witness :
    run_merge_and_copy ⟨Except.error "boom", Except.ok true, Except.ok ()⟩ =
      ⟨1, 0, 0, [("Unexpected error: boom", LogLevel.error)]⟩ :=
  (claim8_job_boundary ⟨Except.error "boom", Except.ok true, Except.ok ()⟩
    "boom" ⟨1, 0, 0, []⟩ rfl).trans (by decide)

/-- C9: a config-store save failure is surfaced both as a blocking error
dialog and as an error-level log record, while a successful save produces
a success-level log record and no dialog. -/
theorem claim9_save_config (config_path : String) :
    (save_config false config_path).any isAlert = true ∧
    (save_config false config_path).any isErrorLog = true ∧
    (save_config true config_path).any isSuccessLog = true ∧
    (save_config true config_path).any isAlert = false := by
  refine ⟨rfl, rfl, rfl, rfl⟩

/-- C7: after `enable_all` the enabled subset is the source paths of all
entries in list order; after `disable_all` it is empty; and in general it
is the order-preserving restriction of the list to its enabled entries —
a sublist of all source paths in which every element comes from an enabled
entry. -/
theorem claim7_enabled_subset (entries : List ModEntry) :
    get_enabled_mods (enable_all entries) = entries.map (fun e => e.sourcePath) ∧
    get_enabled_mods (disable_all entries) = [] ∧
    get_enabled_mods entries =
      (entries.filter (fun e => e.enabled)).map (fun e => e.sourcePath) ∧
    (get_enabled_mods entries).Sublist (entries.map (fun e => e.sourcePath)) ∧
    (get_enabled_mods entries).all
      (fun p => entries.any (fun e => e.enabled && p == e.sourcePath)) = true := by
  refine ⟨?_, ?_, rfl, ?_, ?_⟩
  · induction entries with
    | nil => rfl
    | cons e t ih => simpa [enable_all, get_enabled_mods, List.filter_cons] using ih
  · induction entries with
    | nil => rfl
    | cons e t ih => simp [disable_all, get_enabled_mods, List.filter_cons, ih]
  · exact List.Sublist.map _ (List.filter_sublist _)
  · rw [List.all_eq_true]
    intro p hp
    simp only [get_enabled_mods, List.mem_map, List.mem_filter] at hp
    obtain ⟨e, ⟨he, hen⟩, rfl⟩ := hp
    rw [List.any_eq_true]
    exact ⟨e, he, by simp [hen]⟩

theorem apply_mods_paths_ok (env : ApplyEnv) (h : pathsValid env = true) :
    (pyStrip env.game_path == "" || !env.game_path_isdir) = false ∧
    (pyStrip env.cfgbin_path == "" || !env.cfgbin_exists) = false ∧
    (pyStrip env.violacli_path == "" || !env.violacli_exists) = false := by
  simp only [pathsValid, Bool.and_eq_true, Bool.not_eq_true'] at h
  obtain ⟨⟨⟨h1, h2⟩, h3, h4⟩, h5, h6⟩ := h
  refine ⟨?_, ?_, ?_⟩ <;> simp [h1, h2, h3, h4, h5, h6]

/-- C10: an apply request with valid paths and no enabled mods starts no
worker thread (so the merge tool is never invoked); instead the base
cpk_list.cfg.bin is copied directly into the game's data directory on the
calling thread, with a success log record, or an error-level log record
carrying the exception description if the copy raises. -/
theorem claim10_no_mods_direct_copy (env : ApplyEnv)
    (h1 : pathsValid env = true) (h2 : env.enabled_mods = []) :
    Effect.startWorkerThread ∉ apply_mods false env ∧
    Effect.startWorkerThread ∉ apply_mods true env ∧
    (env.copy_base = Except.ok () →
      apply_mods false env =
        [Effect.makeDirs (pyStrip env.game_path ++ "/data"),
         Effect.copyFile (pyStrip env.cfgbin_path)
           (pyStrip env.game_path ++ "/data/cpk_list.cfg.bin"),
         Effect.logMsg "CHANGES APPLIED!! No mods selected." LogLevel.success]) ∧
    (∀ e, env.copy_base = Except.error e →
      apply_mods false env =
        [Effect.logMsg ("Error applying changes: " ++ e) LogLevel.error]) := by
  obtain ⟨c1, c2, c3⟩ := apply_mods_paths_ok env h1
  refine ⟨?_, ?_, ?_, ?_⟩
  · cases hcb : env.copy_base with
    | ok u => simp [apply_mods, c1, c2, c3, h2, hcb]
    | error e => simp [apply_mods, c1, c2, c3, h2, hcb]
  · rw [apply_mods_running]
    simp
  · intro hcb
    simp [apply_mods, c1, c2, c3, h2, hcb]
  · intro e hcb
    simp [apply_mods, c1, c2, c3, h2, hcb]

/-- A concrete environment with valid paths and no enabled mods. -/
def noModsEnv : ApplyEnv :=
  ⟨"/game", "/cfg/cpk_list.cfg.bin", "/tools/violacli.exe", "/tmp/ievr",
    true, true, true, [], Except.ok ()⟩

/-- Witness for C10 at a concrete no-mods environment. -/
theorem claim10_no_mods_direct_copy_witness :
    pathsValid noModsEnv = true ∧ noModsEnv.enabled_mods = [] ∧
    apply_mods false noModsEnv =
      [Effect.makeDirs "/game/data",
       Effect.copyFile "/cfg/cpk_list.cfg.bin" "/game/data/cpk_list.cfg.bin",
       Effect.logMsg "CHANGES APPLIED!! No mods selected." LogLevel.success] := by
  refine ⟨by decide, rfl, ?_⟩
  have h := (claim10_no_mods_direct_copy noModsEnv (by decide) rfl).2.2.1 rfl
  rw [h]
  decide

theorem keepLast_eq (m : Nat) (l : List String) :
    keepLast m l = (l.reverse.take m).reverse :=
  List.rtake_eq_reverse_take_reverse l m

theorem keepLast_nil (m : Nat) : keepLast m [] = [] := by
  unfold keepLast
  simp

theorem take_append_take (m : Nat) (x y : List String) :
    (x ++ y.take m).take m = (x ++ y).take m := by
  rw [List.take_append_eq_append_take, List.take_append_eq_append_take, List.take_take]
  congr 1
  congr 1
  omega

theorem keepLast_append (m : Nat) (a b : List String) :
    keepLast m (keepLast m a ++ b) = keepLast m (a ++ b) := by
  rw [keepLast_eq m a, keepLast_eq m (_ ++ b), keepLast_eq m (a ++ b)]
  rw [List.reverse_append, List.reverse_reverse, List.reverse_append]
  rw [take_append_take]

theorem splitNL_no_newline (cs : List Char) (h : ∀ c ∈ cs, ¬ c = '\n') :
    splitNL cs = [cs] := by
  induction cs with
  | nil => rfl
  | cons c rest ih =>
    have hc : ¬ c = '\n' := h c (List.mem_cons_self c rest)
    have hrest := ih (fun x hx => h x (List.mem_cons_of_mem c hx))
    simp only [splitNL, if_neg hc, hrest]

theorem noNewline_mem {s : String} (h : noNewline s = true) :
    ∀ c ∈ s.data, ¬ c = '\n' := by
  intro c hc
  have hb := List.all_eq_true.mp h c hc
  simpa using hb

theorem renderLines_single (t m : String) (ht : noNewline t = true)
    (hm : noNewline m = true) :
    renderLines t m = [renderOne t m] := by
  unfold renderLines renderOne
  rw [splitNL_no_newline]
  · rfl
  · intro c hc
    rw [String.data_append, String.data_append, String.data_append] at hc
    simp only [List.mem_append] at hc
    rcases hc with ((h1 | h2) | h3) | h4
    · simp only [show "[".data = ['['] from rfl, List.mem_singleton] at h1
      subst h1
      decide
    · exact noNewline_mem ht c h2
    · simp only [show "] ".data = [']', ' '] from rfl, List.mem_cons,
        List.not_mem_nil, or_false] at h3
      rcases h3 with h3 | h3 <;> subst h3 <;> decide
    · exact noNewline_mem hm c h4

theorem logB_single (maxLines : Nat) (st : List String) (t m : String)
    (ht : noNewline t = true) (hm : noNewline m = true) :
    logB maxLines st t m = keepLast maxLines (st ++ [renderOne t m]) := by
  simp only [logB]
  rw [renderLines_single t m ht hm]
  by_cases hc : (st ++ [renderOne t m]).length + 1 > maxLines
  · rw [if_pos hc]
    unfold keepLast
    congr 1
    omega
  · rw [if_neg hc]
    unfold keepLast
    have h0 : (st ++ [renderOne t m]).length - maxLines = 0 := by omega
    rw [h0, List.drop_zero]

theorem logAll_aux (maxLines : Nat) (records : List (String × String)) :
    ∀ st : List String,
      records.all (fun r => noNewline r.1 && noNewline r.2) = true →
      records.foldl (fun acc r => logB maxLines acc r.1 r.2) (keepLast maxLines st) =
        keepLast maxLines (st ++ records.map (fun r => renderOne r.1 r.2)) := by
  induction records with
  | nil =>
    intro st _
    simp
  | cons r rs ih =>
    intro st h
    rw [List.all_cons, Bool.and_eq_true] at h
    obtain ⟨h1, h2⟩ := h
    rw [Bool.and_eq_true] at h1
    obtain ⟨ht, hm⟩ := h1
    simp only [List.foldl_cons]
    rw [logB_single maxLines (keepLast maxLines st) r.1 r.2 ht hm]
    rw [keepLast_append]
    rw [ih (st ++ [renderOne r.1 r.2]) h2]
    rw [List.append_assoc]
    rfl

/-- C1 counterexample: with capacity 2, appending a record whose message
contains an embedded newline and then a single-line record leaves the log
holding the tail fragment "y" of the first record instead of the two
appended records — the source trims by display lines, so eviction can
split a record, contradicting whole-record FIFO retention of the most
recently appended records. -/
theorem claim1_counterexample :
    logAll 2 [("t1", "x\ny"), ("t2", "z")] = ["y", "[t2] z"] ∧
    logAll 2 [("t1", "x\ny"), ("t2", "z")] ≠
      renderLines "t1" "x\ny" ++ renderLines "t2" "z" := by
  constructor
  · decide
  · decide

/-- C1 (amended): provided no appended timestamp or message contains an
embedded newline, after any sequence of `LogPanel.log` calls the log
retains exactly the `maxLines` most recently appended records, as display
lines in their original relative order — so it never exceeds `maxLines`
records and eviction is whole-record FIFO.  (With embedded newlines the
source trims by display lines and can evict a record partially.) -/
theorem claim1_bounded_log (maxLines : Nat) (records : List (String × String))
    (h : records.all (fun r => noNewline r.1 && noNewline r.2) = true) :
    logAll maxLines records =
      (records.drop (records.length - maxLines)).map (fun r => renderOne r.1 r.2) ∧
    (logAll maxLines records).length ≤ maxLines ∧
    (logAll maxLines records).length = min records.length maxLines := by
  have hmain : logAll maxLines records =
      (records.drop (records.length - maxLines)).map (fun r => renderOne r.1 r.2) := by
    have haux := logAll_aux maxLines records [] h
    simp only [List.nil_append] at haux
    unfold logAll
    rw [show ([] : List String) = keepLast maxLines [] from (keepLast_nil maxLines).symm]
    rw [haux]
    unfold keepLast
    rw [List.length_map]
    exact (List.map_drop _ records _).symm
  refine ⟨hmain, ?_, ?_⟩
  · rw [hmain]
    simp only [List.length_map, List.length_drop]
    omega
  · rw [hmain]
    simp only [List.length_map, List.length_drop]
    omega

/-- Witness for C1 at three concrete single-line records and capacity 2. -/
theorem claim1_bounded_log_witness :
    ([("10:00:00", "alpha"), ("10:00:01", "beta"), ("10:00:02", "gamma")].all
      (fun r => noNewline r.1 && noNewline r.2)) = true ∧
    logAll 2 [("10:00:00", "alpha"), ("10:00:01", "beta"), ("10:00:02", "gamma")] =
      ["[10:00:01] beta", "[10:00:02] gamma"] := by
  refine ⟨by decide, ?_⟩
  have h := (claim1_bounded_log 2
    [("10:00:00", "alpha"), ("10:00:01", "beta"), ("10:00:02", "gamma")] (by decide)).1
  rw [h]
  decide
